import Mathlib

/-!
# compressjson: the encode/decode pipeline and the pooled gzip codec

A shallow embedding of `transcoder.go`, `zstd.go`, `lib/zstd.go` and `lib/gzip.go`.

* A Go result pair `(x, err)` is a Lean pair `α × Option GoError`; `none` is the `nil` error.
* A Go byte slice is a `List Nat` (each entry a byte); a `nil` slice and an empty slice are both `[]`.
* Calls into collaborators are recorded in a trace, so that "stage X was (not) invoked" is a
  statement about the embedding.
* Library objects whose source is outside the repository (JSON, Base64, zstd, gzip) are fields of
  records: the theorems hold for every implementation of them.
-/

/-- Go byte slice. -/
abbrev Bytes := List Nat

/-- Go `error` values built by package `errors`: `errors.New` yields an `errorString`,
`errors.Join` a `joinError` holding the non-nil arguments in order. -/
inductive GoError where
  | errorString (s : String)
  | joinError (errs : List GoError)

namespace GoError

/-- The method `Unwrap() []error` of a `joinError`; other errors wrap nothing. -/
def Unwrap : GoError → List GoError
  | errorString _ => []
  | joinError errs => errs

end GoError

/-- Function `errors.New`. -/
def errorsNew (text : String) : Option GoError :=
  some (GoError.errorString text)

/-- Function `errors.Join`: nil arguments are discarded, and the result is nil when every
argument is nil. -/
def errorsJoin (errs : List (Option GoError)) : Option GoError :=
  match errs.filterMap id with
  | [] => none
  | es => some (GoError.joinError es)

namespace compressjson

/-- Type `JSONTranscoder[T]`: its two methods. -/
structure JSONTranscoder (T : Type) where
  Marshal : T → Bytes × Option GoError
  Unmarshal : Bytes → T × Option GoError

/-- Type `Base64Transcoder`: its two methods. -/
structure Base64Transcoder where
  Encode : Bytes → String × Option GoError
  Decode : String → Bytes × Option GoError

/-- Type `zstd.Encoder` of the compression library, seen through `EncodeAll(src, dst)`. -/
structure ZstdEncoder where
  EncodeAll : Bytes → Bytes → Bytes

/-- Type `zstd.Decoder` of the compression library, seen through `DecodeAll(src, dst)`. -/
structure ZstdDecoder where
  DecodeAll : Bytes → Bytes → Bytes × Option GoError

/-- Type `ZSTDTranscoder` of `zstd.go`. -/
structure ZSTDTranscoder where
  encoder : ZstdEncoder
  decoder : ZstdDecoder

/-- Method `ZSTDTranscoder.Compress` of `zstd.go`; `make([]byte, 0, len(src))` is an empty slice. -/
def ZSTDTranscoder.Compress (t : ZSTDTranscoder) (src : Bytes) : Bytes × Option GoError :=
  (t.encoder.EncodeAll src [], none)

/-- Method `ZSTDTranscoder.Decompress` of `zstd.go`. -/
def ZSTDTranscoder.Decompress (t : ZSTDTranscoder) (src : Bytes) : Bytes × Option GoError :=
  t.decoder.DecodeAll src []

/-- What one run of the two library constructors `zstd.NewWriter(nil, ...)` and
`zstd.NewReader(nil)` returns: the pointer, nil (`none`) when the constructor fails, and the
error. -/
structure ZstdConstructors where
  NewWriter : Option ZstdEncoder × Option GoError
  NewReader : Option ZstdDecoder × Option GoError

/-- A call from `NewZSTDTranscoder` into the zstd library. -/
inductive ZstdCall where
  | NewWriter
  | NewReader
  | EncoderClose
  | DecoderClose
deriving DecidableEq, Repr

/-- The value `&ZSTDTranscoder{encoder: enc, decoder: dec}` as the constructor builds it: each
field is the pointer the library returned, nil (`none`) when the library gave none. -/
structure ZSTDTranscoderPointers where
  encoder : Option ZstdEncoder
  decoder : Option ZstdDecoder

/-- Function `NewZSTDTranscoder` of `zstd.go`: the returned pair and the library calls made, in
order. Both errors are assigned to the blank identifier. -/
def NewZSTDTranscoder (lib : ZstdConstructors) :
    (ZSTDTranscoderPointers × Option GoError) × List ZstdCall :=
  let enc := lib.NewWriter.1
  let dec := lib.NewReader.1
  (({ encoder := enc, decoder := dec }, none), [ZstdCall.NewWriter, ZstdCall.NewReader])

/-- One call from the pipeline into a collaborator, with the argument passed. -/
inductive Call (T : Type) where
  | Marshal (src : T)
  | Compress (src : Bytes)
  | Base64Encode (src : Bytes)
  | Base64Decode (src : String)
  | Decompress (src : Bytes)
  | Unmarshal (src : Bytes)

/-- Type `transcoder[T]` of `transcoder.go`. -/
structure transcoder (T : Type) where
  jsonTranscoder : JSONTranscoder T
  standardTranscoder : ZSTDTranscoder
  binaryTranscoder : Base64Transcoder

/-- Method `transcoder.Encode`: the returned pair and the collaborator calls made, in order. -/
def transcoder.Encode {T : Type} (t : transcoder T) (src : T) :
    (String × Option GoError) × List (Call T) :=
  match t.jsonTranscoder.Marshal src with
  | (_, some err) =>
    (("", errorsJoin [errorsNew "failed to marshal JSON", some err]), [Call.Marshal src])
  | (jsonBytes, none) =>
    match t.standardTranscoder.Compress jsonBytes with
    | (_, some err) =>
      (("", errorsJoin [errorsNew "failed to compress with Zstd", some err]),
        [Call.Marshal src, Call.Compress jsonBytes])
    | (compressedBytes, none) =>
      (t.binaryTranscoder.Encode compressedBytes,
        [Call.Marshal src, Call.Compress jsonBytes, Call.Base64Encode compressedBytes])

/-- Method `transcoder.Decode`; `default` is the zero value of `T` (`var entry T`). -/
def transcoder.Decode {T : Type} [Inhabited T] (t : transcoder T) (src : String) :
    (T × Option GoError) × List (Call T) :=
  let entry : T := default
  match t.binaryTranscoder.Decode src with
  | (_, some err) =>
    ((entry, errorsJoin [errorsNew "failed to decode Base64", some err]), [Call.Base64Decode src])
  | (compressedBytes, none) =>
    match t.standardTranscoder.Decompress compressedBytes with
    | (_, some err) =>
      ((entry, errorsJoin [errorsNew "failed to decompress Zstd", some err]),
        [Call.Base64Decode src, Call.Decompress compressedBytes])
    | (jsonBytes, none) =>
      (t.jsonTranscoder.Unmarshal jsonBytes,
        [Call.Base64Decode src, Call.Decompress compressedBytes, Call.Unmarshal jsonBytes])

end compressjson

/-! ## Concrete collaborators

The pipeline theorems below hold for every collaborator. To evaluate the pipeline on the inputs of
`transcoder_test.go`, the collaborators are instantiated here: the `user` struct with a JSON
serializer for it, the standard Base64 alphabet, and a small framed codec in the place of the
zstd library. -/

namespace fixture

open compressjson

/-- The struct `user` of `transcoder_test.go`. -/
structure user where
  ID : Int
  Name : String
  Email : String
  Age : Int
deriving DecidableEq, Repr

instance : Inhabited user := ⟨⟨0, "", "", 0⟩⟩

/-- The struct `struct{ F func() }` of `TestPipelineTranscoderJSONMarshalError`; a Go func value
is either nil or a function. -/
structure funcHolder where
  F : Option (Unit → Unit)

instance : Inhabited funcHolder := ⟨⟨none⟩⟩

/-- Character codes of a string. -/
def codes (s : String) : List Nat := s.toList.map Char.toNat

/-- String with the given character codes. -/
def ofCodes (cs : List Nat) : String := String.mk (cs.map Char.ofNat)

/-- Decimal digits of a natural number, most significant first; the first argument bounds the
number of digits. -/
def natDigits : Nat → Nat → List Nat → List Nat
  | 0, _, acc => acc
  | fuel + 1, n, acc =>
    if n < 10 then (n + 48) :: acc else natDigits fuel (n / 10) ((n % 10 + 48) :: acc)

/-- JSON text of an integer. -/
def jsonInt (n : Int) : List Nat :=
  match n with
  | Int.ofNat m => natDigits (m + 1) m []
  | Int.negSucc m => 45 :: natDigits (m + 2) (m + 1) []

/-- JSON text of a string: quotes around it, the quote and the backslash escaped. -/
def jsonString (s : String) : List Nat :=
  34 :: ((codes s).flatMap fun c => if c = 34 ∨ c = 92 then [92, c] else [c]) ++ [34]

/-- Marshalling of a `user` under its struct tags: `id` always, `name`, `email` and `age` only
when they are not the zero value (`omitempty`). -/
def marshalUser (u : user) : Bytes :=
  codes "\x7b\"id\":" ++ jsonInt u.ID
    ++ (if u.Name = "" then [] else codes ",\"name\":" ++ jsonString u.Name)
    ++ (if u.Email = "" then [] else codes ",\"email\":" ++ jsonString u.Email)
    ++ (if u.Age = 0 then [] else codes ",\"age\":" ++ jsonInt u.Age)
    ++ codes "\x7d"

/-- Body of a JSON string after its opening quote: the characters decoded and the input after the
closing quote; `none` when the string is not terminated. -/
def scanString : List Nat → List Nat → Option (List Nat × List Nat)
  | [], _ => none
  | 34 :: rest, acc => some (acc.reverse, rest)
  | 92 :: c :: rest, acc => scanString rest (c :: acc)
  | c :: rest, acc => scanString rest (c :: acc)

/-- Value of a run of decimal digits. -/
def digitsValue (ds : List Nat) : Nat := ds.foldl (fun acc d => acc * 10 + (d - 48)) 0

/-- A JSON integer at the head of the input: its value and the input after it. -/
def scanInt (inp : List Nat) : Option (Int × List Nat) :=
  match inp with
  | 45 :: rest =>
    let ds := rest.takeWhile fun c => decide (48 ≤ c ∧ c ≤ 57)
    if ds = [] then none else some (-(digitsValue ds : Int), rest.drop ds.length)
  | _ =>
    let ds := inp.takeWhile fun c => decide (48 ≤ c ∧ c ≤ 57)
    if ds = [] then none else some ((digitsValue ds : Int), inp.drop ds.length)

/-- Members of a JSON object read into a `user`, field by field. On malformed input or a value of
the wrong type the fields read so far stay set and the error is returned with them, as
`json.Unmarshal` into a variable does. The first argument bounds the number of members. -/
def scanMembers : Nat → List Nat → user → user × Option GoError
  | 0, _, u => (u, some (GoError.errorString "unexpected end of JSON input"))
  | fuel + 1, inp, u =>
    match inp with
    | 34 :: rest =>
      match scanString rest [] with
      | none => (u, some (GoError.errorString "unexpected end of JSON input"))
      | some (key, 58 :: afterColon) =>
        let k := ofCodes key
        if k = "id" ∨ k = "age" then
          match scanInt afterColon with
          | none => (u, some (GoError.errorString ("json: cannot unmarshal into field " ++ k)))
          | some (n, tail) =>
            let u1 := if k = "id" then { u with ID := n } else { u with Age := n }
            match tail with
            | [125] => (u1, none)
            | 44 :: more => scanMembers fuel more u1
            | _ => (u1, some (GoError.errorString "invalid character after object value"))
        else if k = "name" ∨ k = "email" then
          match afterColon with
          | 34 :: body =>
            match scanString body [] with
            | none => (u, some (GoError.errorString "unexpected end of JSON input"))
            | some (val, tail) =>
              let u1 := if k = "name" then { u with Name := ofCodes val }
                else { u with Email := ofCodes val }
              match tail with
              | [125] => (u1, none)
              | 44 :: more => scanMembers fuel more u1
              | _ => (u1, some (GoError.errorString "invalid character after object value"))
          | _ => (u, some (GoError.errorString ("json: cannot unmarshal into field " ++ k)))
        else (u, some (GoError.errorString ("json: unknown field " ++ k)))
      | some _ => (u, some (GoError.errorString "invalid character after object key"))
    | _ => (u, some (GoError.errorString "invalid character looking for object key"))

/-- Unmarshalling of a `user` from JSON text. -/
def unmarshalUser (data : Bytes) : user × Option GoError :=
  match data with
  | [123, 125] => (default, none)
  | 123 :: rest => scanMembers rest.length rest default
  | _ => (default, some (GoError.errorString "invalid character looking for beginning of value"))

/-- Modelled from the spec: `JSONTranscoder[user]`, whose source file is not among the sources;
the Serializer of §6 for the struct `user`. -/
def userJSON : JSONTranscoder user :=
  { Marshal := fun v => (marshalUser v, none)
    Unmarshal := unmarshalUser }

/-- Modelled from the spec: `JSONTranscoder[struct{ F func() }]`, whose source file is not among
the sources; §6 has Marshal fail on a value with an executable member. -/
def funcJSON : JSONTranscoder funcHolder :=
  { Marshal := fun _ => ([], some (GoError.errorString "json: unsupported type: func()"))
    Unmarshal := fun _ =>
      (default, some (GoError.errorString "json: cannot unmarshal into Go value of type func()")) }

/-- Character code of the Base64 digit of value `n` in the standard alphabet. -/
def b64Digit (n : Nat) : Nat :=
  if n < 26 then n + 65
  else if n < 52 then n + 71
  else if n < 62 then n - 4
  else if n = 62 then 43
  else 47

/-- Value of the Base64 digit with character code `c`, when `c` is in the standard alphabet. -/
def b64Value (c : Nat) : Option Nat :=
  if 65 ≤ c ∧ c ≤ 90 then some (c - 65)
  else if 97 ≤ c ∧ c ≤ 122 then some (c - 71)
  else if 48 ≤ c ∧ c ≤ 57 then some (c + 4)
  else if c = 43 then some 62
  else if c = 47 then some 63
  else none

/-- Standard Base64 with `=` padding: three bytes to four digits. -/
def b64EncodeCodes : Bytes → List Nat
  | [] => []
  | [a] => [b64Digit (a % 256 / 4), b64Digit (a % 4 * 16), 61, 61]
  | [a, b] =>
    [b64Digit (a % 256 / 4), b64Digit (a % 4 * 16 + b % 256 / 16), b64Digit (b % 16 * 4), 61]
  | a :: b :: c :: rest =>
    b64Digit (a % 256 / 4) :: b64Digit (a % 4 * 16 + b % 256 / 16) ::
      b64Digit (b % 16 * 4 + c % 256 / 64) :: b64Digit (c % 64) :: b64EncodeCodes rest

/-- Inverse of `b64EncodeCodes`; `none` on a character outside the alphabet, on a length that is
not a multiple of four and on padding anywhere but at the end. -/
def b64DecodeCodes : List Nat → Option Bytes
  | [] => some []
  | [c1, c2, 61, 61] =>
    match b64Value c1, b64Value c2 with
    | some v1, some v2 => some [v1 * 4 + v2 / 16]
    | _, _ => none
  | [c1, c2, c3, 61] =>
    match b64Value c1, b64Value c2, b64Value c3 with
    | some v1, some v2, some v3 => some [v1 * 4 + v2 / 16, v2 % 16 * 16 + v3 / 4]
    | _, _, _ => none
  | c1 :: c2 :: c3 :: c4 :: rest =>
    match b64Value c1, b64Value c2, b64Value c3, b64Value c4, b64DecodeCodes rest with
    | some v1, some v2, some v3, some v4, some out =>
      some ((v1 * 4 + v2 / 16) :: (v2 % 16 * 16 + v3 / 4) :: (v3 % 4 * 64 + v4) :: out)
    | _, _, _, _, _ => none
  | _ => none

/-- Model of `base64.StdEncoding.EncodeToString`, which `transcoder_test.go` calls. -/
def EncodeToString (src : Bytes) : String := ofCodes (b64EncodeCodes src)

/-- Model of `base64.StdEncoding.DecodeString`, which `transcoder_test.go` calls. -/
def DecodeString (s : String) : Bytes × Option GoError :=
  match b64DecodeCodes (codes s) with
  | some out => (out, none)
  | none => ([], some (GoError.errorString "illegal base64 data"))

/-- Modelled from the spec: `Base64Transcoder`, whose source file is not among the sources; the
TextCodec of §6 over the standard alphabet, with an encoder that cannot fail. -/
def stdBase64 : Base64Transcoder :=
  { Encode := fun src => (EncodeToString src, none)
    Decode := DecodeString }

/-- Four bytes of a number, least significant first. -/
def le32 (n : Nat) : Bytes := [n % 256, n / 256 % 256, n / 65536 % 256, n / 16777216 % 256]

/-- Sum of the payload bytes, the check value of a frame. -/
def frameSum (payload : Bytes) : Nat := (payload.foldl (fun acc b => acc + b) 0) % 4294967296

/-- A stored frame appended to `dst`: four magic bytes, the payload length, the payload and its
check value. It stands in for `Encoder.EncodeAll`; it is not the zstd format. -/
def frameEncodeAll (src dst : Bytes) : Bytes :=
  dst ++ [40, 181, 47, 253] ++ le32 src.length ++ src ++ le32 (frameSum src)

/-- Reading of a stored frame, standing in for `Decoder.DecodeAll`: an error on a wrong magic
number, on a frame shorter or longer than its length field says, and on a wrong check value; in
the last case the payload read is returned next to the error. -/
def frameDecodeAll (src dst : Bytes) : Bytes × Option GoError :=
  match src with
  | 40 :: 181 :: 47 :: 253 :: l0 :: l1 :: l2 :: l3 :: body =>
    let n := l0 + 256 * l1 + 65536 * l2 + 16777216 * l3
    if body.length < n + 4 then (dst, some (GoError.errorString "unexpected EOF"))
    else if body.length > n + 4 then (dst, some (GoError.errorString "invalid input: trailing data"))
    else
      let payload := body.take n
      if body.drop n = le32 (frameSum payload) then (dst ++ payload, none)
      else (dst ++ payload, some (GoError.errorString "invalid input: checksum mismatch"))
  | _ => (dst, some (GoError.errorString "invalid input: magic number mismatch"))

/-- A `ZSTDTranscoder` over the stored-frame codec. -/
def frameZSTD : ZSTDTranscoder :=
  { encoder := ⟨frameEncodeAll⟩
    decoder := ⟨frameDecodeAll⟩ }

/-- The pipeline `NewTranscoder[user]()` of the tests. -/
def userTranscoder : transcoder user :=
  { jsonTranscoder := userJSON
    standardTranscoder := frameZSTD
    binaryTranscoder := stdBase64 }

/-- The pipeline `NewTranscoder[struct{ F func() }]()` of the tests. -/
def funcTranscoder : transcoder funcHolder :=
  { jsonTranscoder := funcJSON
    standardTranscoder := frameZSTD
    binaryTranscoder := stdBase64 }

/-- A text codec whose encoder reports an error on every input. It is not the Base64 codec of
§6, whose encoder cannot fail (`stdBase64`): it is the case C7 speaks of, a text encoder that
returns an error, written out so that `Encode` can be evaluated on it. -/
def failingBase64 : Base64Transcoder :=
  { Encode := fun _ => ("", some (GoError.errorString "text encoder failed"))
    Decode := DecodeString }

/-- The `user` pipeline over `failingBase64`. -/
def failingTextTranscoder : transcoder user :=
  { jsonTranscoder := userJSON
    standardTranscoder := frameZSTD
    binaryTranscoder := failingBase64 }

/-- Case "Base64 with invalid padding" of the tests: `s[:len(s)-2] + "%%"`. -/
def invalidPadding (s : String) : String :=
  String.mk (s.toList.take (s.length - 2)) ++ "%%"

/-- Case "Corrupted Zstd after Base64" of the tests: the decoded bytes cut to 20. -/
def truncateDecoded (s : String) : String :=
  let dec := (DecodeString s).1
  EncodeToString (if dec.length > 20 then dec.take 20 else dec)

/-- Case "Bit-flipped Zstd payload" of the tests: `dec[15] ^= 0xff`. -/
def flipDecoded (s : String) : String :=
  let dec := (DecodeString s).1
  EncodeToString (if dec.length > 15 then dec.modify (fun b => 255 - b % 256) 15 else dec)

/-- A run of the library constructors in which the encoder is made and the decoder fails. -/
def decoderFails : ZstdConstructors :=
  { NewWriter := (some ⟨frameEncodeAll⟩, none)
    NewReader := (none, some (GoError.errorString "zstd: decoder construction failed")) }

/-- A run of the library constructors in which the encoder fails and the decoder is made. -/
def encoderFails : ZstdConstructors :=
  { NewWriter := (none, some (GoError.errorString "zstd: encoder construction failed"))
    NewReader := (some ⟨frameDecodeAll⟩, none) }

/-- First success case of the tests. -/
def alice : user := ⟨42, "Alice", "alice@example.com", 30⟩

/-- Second success case of the tests: `Email` and `Age` are zero values. -/
def bob : user := ⟨1, "Bob", "", 0⟩

end fixture

/-! ## The pooled gzip codec of `lib/gzip.go`

`sync.Pool` is explicit state: the idle objects, the number of objects `New` has made, and a log
of what happened to the pool. The `kgzip` writer and reader are library objects: what the library
computes from their state is the fields of `GzipLib`, and the codec is defined for every such
library. What an object is bound to is explicit too: a writer emits into the buffer it is bound
to and a reader reads the source it is bound to, and `Reset` is what binds them. A library call
that does not return (a panic) is outside the model. -/

namespace lib

/-- Identity of a `bytes.Buffer` allocated by a call: its index in `World.buffers`. -/
abbrev Ref := Nat

/-- The part of `kgzip` that `gzip.go` calls, as functions of the library state of an object.
Writing methods return the new state, the bytes they emit and the error; reading methods take the
bytes of the source they read. Where the emitted bytes go and which source is read is decided by
what the object is bound to: see `Writer.Write`, `Writer.Close`, `Reader.Reset` and
`Reader.ReadAll`. -/
structure GzipLib where
  WriterState : Type
  ReaderState : Type
  NewWriterLevel : WriterState
  NewReader : ReaderState
  WriterReset : WriterState → WriterState
  Write : WriterState → Bytes → WriterState × Bytes × Option GoError
  Close : WriterState → WriterState × Bytes × Option GoError
  ReaderReset : ReaderState → Bytes → ReaderState × Option GoError
  ReadAll : ReaderState → Bytes → ReaderState × Bytes × Option GoError

/-- A `*kgzip.Writer`: the library state `z` and the destination `w` it is bound to (`nil` when
made by `NewWriterLevel(nil, ...)`, the buffer of the call after `Reset(&buf)`). -/
structure Writer (L : GzipLib) where
  z : L.WriterState
  w : Option Ref

/-- A `*kgzip.Reader`: the library state `z` and the source `r` it is bound to (`nil` when made by
`NewReader(nil)`, the slice behind `bytes.NewReader(src)` after `Reset(srcReader)`). -/
structure Reader (L : GzipLib) where
  z : L.ReaderState
  r : Option Bytes

/-- What happens to a pool: `New` made the object `id`, `Get` handed it out, `Put` took it back. -/
inductive PoolEvent where
  | New (id : Nat)
  | Get (id : Nat)
  | Put (id : Nat)
deriving DecidableEq, Repr

/-- A `sync.Pool`: the idle objects, each with its identity, the number of objects made by `New`
and the log of events, oldest first. -/
structure Pool (α : Type) where
  idle : List (Nat × α)
  created : Nat
  log : List PoolEvent

/-- A pool on which nothing has happened yet. -/
def Pool.empty {α : Type} : Pool α :=
  { idle := [], created := 0, log := [] }

/-- Method `Pool.Get`: an idle object if there is one, else a new one made by `New`. -/
def Pool.Get {α : Type} (p : Pool α) (new : α) : (Nat × α) × Pool α :=
  match p.idle with
  | x :: rest => (x, { p with idle := rest, log := p.log ++ [PoolEvent.Get x.1] })
  | [] =>
    ((p.created, new),
      { p with created := p.created + 1
               log := p.log ++ [PoolEvent.New p.created, PoolEvent.Get p.created] })

/-- Method `Pool.Put`. -/
def Pool.Put {α : Type} (p : Pool α) (x : Nat × α) : Pool α :=
  { p with idle := x :: p.idle, log := p.log ++ [PoolEvent.Put x.1] }

/-- The package state: `writerPool`, `readerPool`, and the buffers allocated by calls so far. -/
structure World (L : GzipLib) where
  writerPool : Pool (Writer L)
  readerPool : Pool (Reader L)
  buffers : List Bytes

/-- The state at program start. -/
def World.empty (L : GzipLib) : World L :=
  { writerPool := Pool.empty, readerPool := Pool.empty, buffers := [] }

/-- Method `bytes.Buffer.Write` seen from the heap: `out` is appended to the buffer at `buf`. -/
def appendAt : List Bytes → Ref → Bytes → List Bytes
  | [], _, _ => []
  | b :: rest, 0, out => (b ++ out) :: rest
  | b :: rest, n + 1, out => b :: appendAt rest n out

/-- The heap after a writer bound to `w` emitted `out`: the bytes land in the buffer the writer
is bound to. A writer bound to nothing has no destination (writing through it is a panic in Go,
outside the model). -/
def emit (buffers : List Bytes) (w : Option Ref) (out : Bytes) : List Bytes :=
  match w with
  | some buf => appendAt buffers buf out
  | none => buffers

/-- Method `Writer.Reset(dst)`: the library state is reset and the writer is bound to `dst`. -/
def Writer.Reset {L : GzipLib} (x : Writer L) (dst : Ref) : Writer L :=
  { z := L.WriterReset x.z, w := some dst }

/-- Method `Writer.Write(p)`: the bytes emitted go to the buffer the writer is bound to. -/
def Writer.Write {L : GzipLib} (x : Writer L) (p : Bytes) (buffers : List Bytes) :
    (Writer L × List Bytes) × Option GoError :=
  let res := L.Write x.z p
  (({ z := res.1, w := x.w }, emit buffers x.w res.2.1), res.2.2)

/-- Method `Writer.Close()`: the bytes emitted go to the buffer the writer is bound to. -/
def Writer.Close {L : GzipLib} (x : Writer L) (buffers : List Bytes) :
    (Writer L × List Bytes) × Option GoError :=
  let res := L.Close x.z
  (({ z := res.1, w := x.w }, emit buffers x.w res.2.1), res.2.2)

/-- Method `Reader.Reset(r)` with `r = bytes.NewReader(src)`: the reader is bound to `src` and
the library reads the header from it. -/
def Reader.Reset {L : GzipLib} (x : Reader L) (src : Bytes) : Reader L × Option GoError :=
  let res := L.ReaderReset x.z src
  ({ z := res.1, r := some src }, res.2)

/-- Function `io.ReadAll(reader)`: the library reads the source the reader is bound to. A reader
bound to nothing has no source (reading through it is a panic in Go, outside the model). -/
def Reader.ReadAll {L : GzipLib} (x : Reader L) : (Reader L × Bytes) × Option GoError :=
  let res := L.ReadAll x.z (x.r.getD [])
  (({ z := res.1, r := x.r }, res.2.1), res.2.2)

/-- Method `GZIPTranscoder.Compress`. The deferred `writerPool.Put(writer)` runs on each of the
three returns; `buf` is the buffer allocated by `var buf bytes.Buffer`, empty at first, and
`buf.Bytes()` is its content at the end. -/
def GZIPTranscoder.Compress (L : GzipLib) (src : Bytes) (s : World L) :
    (Bytes × Option GoError) × World L :=
  let got := s.writerPool.Get ⟨L.NewWriterLevel, none⟩
  let id := got.1.1
  let buf : Ref := s.buffers.length
  let writer := got.1.2.Reset buf
  match writer.Write src (s.buffers ++ [[]]) with
  | ((writer1, heap1), some err) =>
    (([], some err), { s with writerPool := got.2.Put (id, writer1), buffers := heap1 })
  | ((writer1, heap1), none) =>
    match writer1.Close heap1 with
    | ((writer2, heap2), some err) =>
      (([], some err), { s with writerPool := got.2.Put (id, writer2), buffers := heap2 })
    | ((writer2, heap2), none) =>
      ((heap2.getD buf [], none),
        { s with writerPool := got.2.Put (id, writer2), buffers := heap2 })

/-- Method `GZIPTranscoder.Decompress`. The deferred `readerPool.Put(reader)` runs on each of the
three returns. -/
def GZIPTranscoder.Decompress (L : GzipLib) (src : Bytes) (s : World L) :
    (Bytes × Option GoError) × World L :=
  let got := s.readerPool.Get ⟨L.NewReader, none⟩
  let id := got.1.1
  match got.1.2.Reset src with
  | (reader1, some err) =>
    (([], some err), { s with readerPool := got.2.Put (id, reader1) })
  | (reader1, none) =>
    match reader1.ReadAll with
    | ((reader2, _), some err) =>
      (([], some err), { s with readerPool := got.2.Put (id, reader2) })
    | ((reader2, decompressed), none) =>
      ((decompressed, none), { s with readerPool := got.2.Put (id, reader2) })

/-- One call on the codec. -/
inductive Op where
  | Compress (src : Bytes)
  | Decompress (src : Bytes)

/-- The state after one call. -/
def step (L : GzipLib) (s : World L) : Op → World L
  | Op.Compress src => (GZIPTranscoder.Compress L src s).2
  | Op.Decompress src => (GZIPTranscoder.Decompress L src s).2

/-- The state after a sequence of calls made one after the other. -/
def run (L : GzipLib) (ops : List Op) (s : World L) : World L :=
  ops.foldl (step L) s

/-- State of the stored-format writer below. -/
structure StoredWriter where
  wroteHeader : Bool
  closed : Bool
  size : Nat
  sum : Nat
deriving DecidableEq, Repr

/-- State of the stored-format reader below. -/
structure StoredReader where
  headerRead : Bool
  finished : Bool
deriving DecidableEq, Repr

/-- A library for `GzipLib` with a stored format in the place of deflate: two magic bytes, the
data as written, then the byte sum and the length, four bytes each. `Reset` puts an object back
into the state of a new one. It is used to evaluate the codec on concrete calls. -/
def storedGzip : GzipLib :=
  { WriterState := StoredWriter
    ReaderState := StoredReader
    NewWriterLevel := ⟨false, false, 0, 0⟩
    NewReader := ⟨false, false⟩
    WriterReset := fun _ => ⟨false, false, 0, 0⟩
    Write := fun z p =>
      if z.closed then (z, [], some (GoError.errorString "gzip: write after Close"))
      else
        (⟨true, false, z.size + p.length, z.sum + fixture.frameSum p⟩,
          (if z.wroteHeader then [] else [31, 139]) ++ p, none)
    Close := fun z =>
      if z.closed then (z, [], none)
      else
        (⟨true, true, z.size, z.sum⟩,
          (if z.wroteHeader then [] else [31, 139]) ++ fixture.le32 z.sum ++ fixture.le32 z.size,
          none)
    ReaderReset := fun _ src =>
      match src with
      | 31 :: 139 :: _ => (⟨true, false⟩, none)
      | _ => (⟨false, false⟩, some (GoError.errorString "gzip: invalid header"))
    ReadAll := fun z src =>
      let body := src.drop 2
      if z.headerRead = false ∨ z.finished = true then (z, [], none)
      else if body.length < 8 then (z, body, some (GoError.errorString "unexpected EOF"))
      else
        let data := body.take (body.length - 8)
        if body.drop (body.length - 8)
            = fixture.le32 (fixture.frameSum data) ++ fixture.le32 data.length then
          (⟨true, true⟩, data, none)
        else (z, data, some (GoError.errorString "gzip: invalid checksum")) }

/-- Pool `q` is pool `p` after one object was taken by `Get` and put back by one `Put`: the
object `id` is idle again in the place of the one `Get` removed, and the log grew by one `Get` and
one `Put` of `id`, after one `New` of `id` exactly when `p` had no idle object. -/
def Pool.BorrowedOnce {α : Type} (p q : Pool α) : Prop :=
  ∃ (id : Nat) (a : α),
    q.idle = (id, a) :: p.idle.tail
      ∧ ((p.idle ≠ [] ∧ q.created = p.created
            ∧ q.log = p.log ++ [PoolEvent.Get id, PoolEvent.Put id])
        ∨ (p.idle = [] ∧ q.created = p.created + 1
            ∧ q.log = p.log ++ [PoolEvent.New id, PoolEvent.Get id, PoolEvent.Put id]))

/-- Pool `p` holds every object it ever made, and it made at most one. -/
def Pool.Steady {α : Type} (p : Pool α) : Prop :=
  p.idle.length = p.created ∧ p.created ≤ 1

/-- Some idle reader of the pool is bound to the source `src`. -/
def World.readerReferences {L : GzipLib} (s : World L) (src : Bytes) : Prop :=
  ∃ x ∈ s.readerPool.idle, x.2.r = some src

/-- Some idle writer of the pool is bound to the buffer `buf`. -/
def World.writerReferences {L : GzipLib} (s : World L) (buf : Ref) : Prop :=
  ∃ x ∈ s.writerPool.idle, x.2.w = some buf

/-- The package variables `encoder` and `decoder` of `lib/zstd.go`, shared by every
`ZSTDTranscoder` of that package. -/
structure ZstdGlobals where
  encoder : compressjson.ZstdEncoder
  decoder : compressjson.ZstdDecoder

/-- Method `ZSTDTranscoder.Compress` of `lib/zstd.go`; the receiver is an empty struct. -/
def ZSTDTranscoder.Compress (g : ZstdGlobals) (src : Bytes) : Bytes × Option GoError :=
  (g.encoder.EncodeAll src [], none)

/-- Method `ZSTDTranscoder.Decompress` of `lib/zstd.go`; the receiver is an empty struct. -/
def ZSTDTranscoder.Decompress (g : ZstdGlobals) (src : Bytes) : Bytes × Option GoError :=
  g.decoder.DecodeAll src []

end lib

open compressjson

/-! ## The pipeline -/

/-- Function `errors.Join` on a message and a non-nil error yields the `joinError` of the two. -/
theorem errorsJoin_two (text : String) (e : GoError) :
    errorsJoin [errorsNew text, some e]
      = some (GoError.joinError [GoError.errorString text, e]) := by
  rfl

/-- When the three stages of `Encode` succeed, its result is the output of the text encoder and
the three calls are made in order, each on the output of the one before. -/
theorem Encode_chain {T : Type} (t : transcoder T) (v : T) (b c : Bytes) (s : String)
    (hM : t.jsonTranscoder.Marshal v = (b, none))
    (hC : t.standardTranscoder.Compress b = (c, none))
    (hE : t.binaryTranscoder.Encode c = (s, none)) :
    t.Encode v = ((s, none), [Call.Marshal v, Call.Compress b, Call.Base64Encode c]) := by
  simp [transcoder.Encode, hM, hC, hE]

/-- When the first two stages of `Decode` succeed, its result is whatever `Unmarshal` returns,
value and error alike. -/
theorem Decode_chain {T : Type} [Inhabited T] (t : transcoder T) (s : String) (c b : Bytes)
    (r : T × Option GoError)
    (hD : t.binaryTranscoder.Decode s = (c, none))
    (hZ : t.standardTranscoder.Decompress c = (b, none))
    (hU : t.jsonTranscoder.Unmarshal b = r) :
    t.Decode s = (r, [Call.Base64Decode s, Call.Decompress c, Call.Unmarshal b]) := by
  simp [transcoder.Decode, hD, hZ, hU]

/-- When the first two stages of `Encode` succeed, its result is whatever the text encoder
returns, string and error alike. -/
theorem Encode_text_result {T : Type} (t : transcoder T) (v : T) (b c : Bytes)
    (r : String × Option GoError)
    (hM : t.jsonTranscoder.Marshal v = (b, none))
    (hC : t.standardTranscoder.Compress b = (c, none))
    (hE : t.binaryTranscoder.Encode c = r) :
    t.Encode v = (r, [Call.Marshal v, Call.Compress b, Call.Base64Encode c]) := by
  simp [transcoder.Encode, hM, hC, hE]

/-- C1 (round-trip law): if the serializer round-trips `v` through `b`, the compression codec
round-trips `b` through `c` and the text codec round-trips `c` through `s`, all without error,
then `Encode v` returns `s` with a nil error and `Decode` of that string returns exactly `v` with
a nil error. -/
theorem Decode_Encode_roundtrip {T : Type} [Inhabited T] (t : transcoder T) (v : T)
    (b c : Bytes) (s : String)
    (hM : t.jsonTranscoder.Marshal v = (b, none))
    (hU : t.jsonTranscoder.Unmarshal b = (v, none))
    (hC : t.standardTranscoder.Compress b = (c, none))
    (hZ : t.standardTranscoder.Decompress c = (b, none))
    (hE : t.binaryTranscoder.Encode c = (s, none))
    (hD : t.binaryTranscoder.Decode s = (c, none)) :
    (t.Encode v).1 = (s, none) ∧ (t.Decode (t.Encode v).1.1).1 = (v, none) := by
  have hEnc := Encode_chain t v b c s hM hC hE
  have hDec := Decode_chain t s c b (v, none) hD hZ hU
  rw [hEnc]
  exact ⟨rfl, by rw [hDec]⟩

/-- Witness of C1 on the two `user` values of the tests; the serialized form of the second has no
`email` and no `age` member. -/
theorem Decode_Encode_roundtrip_witness :
    ((fixture.userTranscoder.Encode fixture.alice).1
        = ("KLUv/T0AAAB7ImlkIjo0MiwibmFtZSI6IkFsaWNlIiwiZW1haWwiOiJhbGljZUBleGFtcGxlLmNvbSIsImFnZSI6MzB93RIAAA==", none)
      ∧ (fixture.userTranscoder.Decode (fixture.userTranscoder.Encode fixture.alice).1.1).1
        = (fixture.alice, none))
    ∧ ((fixture.userTranscoder.Encode fixture.bob).1
        = ("KLUv/RUAAAB7ImlkIjoxLCJuYW1lIjoiQm9iIn0WBgAA", none)
      ∧ (fixture.userTranscoder.Decode (fixture.userTranscoder.Encode fixture.bob).1.1).1
        = (fixture.bob, none))
    ∧ fixture.marshalUser fixture.bob = fixture.codes "\x7b\"id\":1,\"name\":\"Bob\"\x7d" :=
  ⟨Decode_Encode_roundtrip fixture.userTranscoder fixture.alice
      (fixture.marshalUser fixture.alice)
      (fixture.frameEncodeAll (fixture.marshalUser fixture.alice) [])
      "KLUv/T0AAAB7ImlkIjo0MiwibmFtZSI6IkFsaWNlIiwiZW1haWwiOiJhbGljZUBleGFtcGxlLmNvbSIsImFnZSI6MzB93RIAAA=="
      rfl rfl rfl rfl rfl rfl,
    Decode_Encode_roundtrip fixture.userTranscoder fixture.bob
      (fixture.marshalUser fixture.bob)
      (fixture.frameEncodeAll (fixture.marshalUser fixture.bob) [])
      "KLUv/RUAAAB7ImlkIjoxLCJuYW1lIjoiQm9iIn0WBgAA"
      rfl rfl rfl rfl rfl rfl,
    by decide⟩

/-- C2 (fixed three-stage chain): when the three stages succeed on `v`, `Encode v` is the text
encoding of the compression of the serialization of `v`, with a nil error, and the calls made are
Marshal, Compress, text-encode, once each, in this order, each on the output of the one before;
when the three stages succeed on `s2`, `Decode s2` is the deserialization of the decompression of
the text decoding of `s2`, with a nil error, and the calls made are text-decode, Decompress,
Unmarshal, once each, in this order, each on the output of the one before. -/
theorem pipeline_fixed_chain {T : Type} [Inhabited T] (t : transcoder T)
    (v : T) (b c : Bytes) (s : String) (s2 : String) (c2 b2 : Bytes) (v2 : T)
    (hM : t.jsonTranscoder.Marshal v = (b, none))
    (hC : t.standardTranscoder.Compress b = (c, none))
    (hE : t.binaryTranscoder.Encode c = (s, none))
    (hD : t.binaryTranscoder.Decode s2 = (c2, none))
    (hZ : t.standardTranscoder.Decompress c2 = (b2, none))
    (hU : t.jsonTranscoder.Unmarshal b2 = (v2, none)) :
    t.Encode v = ((s, none), [Call.Marshal v, Call.Compress b, Call.Base64Encode c])
      ∧ t.Decode s2
        = ((v2, none), [Call.Base64Decode s2, Call.Decompress c2, Call.Unmarshal b2]) :=
  ⟨Encode_chain t v b c s hM hC hE, Decode_chain t s2 c2 b2 (v2, none) hD hZ hU⟩

/-- Witness of C2: `Encode` of the first test value and `Decode` of the string encoding the second
one. -/
theorem pipeline_fixed_chain_witness :
    fixture.userTranscoder.Encode fixture.alice
      = (("KLUv/T0AAAB7ImlkIjo0MiwibmFtZSI6IkFsaWNlIiwiZW1haWwiOiJhbGljZUBleGFtcGxlLmNvbSIsImFnZSI6MzB93RIAAA==", none),
          [Call.Marshal fixture.alice,
            Call.Compress (fixture.marshalUser fixture.alice),
            Call.Base64Encode (fixture.frameEncodeAll (fixture.marshalUser fixture.alice) [])])
    ∧ fixture.userTranscoder.Decode "KLUv/RUAAAB7ImlkIjoxLCJuYW1lIjoiQm9iIn0WBgAA"
      = ((fixture.bob, none),
          [Call.Base64Decode "KLUv/RUAAAB7ImlkIjoxLCJuYW1lIjoiQm9iIn0WBgAA",
            Call.Decompress (fixture.frameEncodeAll (fixture.marshalUser fixture.bob) []),
            Call.Unmarshal (fixture.marshalUser fixture.bob)]) :=
  pipeline_fixed_chain fixture.userTranscoder fixture.alice
    (fixture.marshalUser fixture.alice)
    (fixture.frameEncodeAll (fixture.marshalUser fixture.alice) [])
    "KLUv/T0AAAB7ImlkIjo0MiwibmFtZSI6IkFsaWNlIiwiZW1haWwiOiJhbGljZUBleGFtcGxlLmNvbSIsImFnZSI6MzB93RIAAA=="
    "KLUv/RUAAAB7ImlkIjoxLCJuYW1lIjoiQm9iIn0WBgAA"
    (fixture.frameEncodeAll (fixture.marshalUser fixture.bob) [])
    (fixture.marshalUser fixture.bob) fixture.bob
    rfl rfl rfl rfl rfl rfl

/-- C3 (unserializable value): when `Marshal v` returns the error `e`, `Encode v` returns the
empty string and the join of the message "failed to marshal JSON" with `e`; `e` is one of the
errors the returned error unwraps to; and `Marshal` is the only call made, so neither `Compress`
nor the text encoder is invoked. -/
theorem Encode_marshal_error {T : Type} (t : transcoder T) (v : T) (b : Bytes) (e : GoError)
    (hM : t.jsonTranscoder.Marshal v = (b, some e)) :
    t.Encode v
        = (("", some (GoError.joinError [GoError.errorString "failed to marshal JSON", e])),
            [Call.Marshal v])
      ∧ e ∈ (GoError.joinError [GoError.errorString "failed to marshal JSON", e]).Unwrap := by
  constructor
  · simp [transcoder.Encode, hM, errorsJoin_two]
  · simp [GoError.Unwrap]

/-- Witness of C3 on the value `struct{ F func() }{F: func() {}}` of the tests. -/
theorem Encode_marshal_error_witness :
    fixture.funcTranscoder.Encode ⟨some fun _ => ()⟩
        = (("", some (GoError.joinError [GoError.errorString "failed to marshal JSON",
              GoError.errorString "json: unsupported type: func()"])),
            [Call.Marshal ⟨some fun _ => ()⟩])
      ∧ GoError.errorString "json: unsupported type: func()"
        ∈ (GoError.joinError [GoError.errorString "failed to marshal JSON",
            GoError.errorString "json: unsupported type: func()"]).Unwrap :=
  Encode_marshal_error fixture.funcTranscoder ⟨some fun _ => ()⟩ []
    (GoError.errorString "json: unsupported type: func()") rfl

/-- C4 (text-decode failure): when the text decoder returns the error `e` on `s`, `Decode s`
returns the zero value of `T` and the join of the message "failed to decode Base64" with `e`, and
the text decoder is the only call made, so neither `Decompress` nor `Unmarshal` is invoked. -/
theorem Decode_text_error {T : Type} [Inhabited T] (t : transcoder T) (s : String) (c : Bytes)
    (e : GoError)
    (hD : t.binaryTranscoder.Decode s = (c, some e)) :
    t.Decode s
      = ((default, some (GoError.joinError [GoError.errorString "failed to decode Base64", e])),
          [Call.Base64Decode s]) := by
  simp [transcoder.Decode, hD, errorsJoin_two]

/-- Witness of C4 on the two strings of the tests: text outside the alphabet, and the encoding of
`user{ID: 999}` with its last two characters replaced by "%%". -/
theorem Decode_text_error_witness :
    fixture.userTranscoder.Decode "!!! this is not base64 !!!"
      = ((default, some (GoError.joinError [GoError.errorString "failed to decode Base64",
            GoError.errorString "illegal base64 data"])),
          [Call.Base64Decode "!!! this is not base64 !!!"])
    ∧ fixture.invalidPadding (fixture.userTranscoder.Encode ⟨999, "", "", 0⟩).1.1
      = "KLUv/QoAAAB7ImlkIjo5OTl97gIAAA%%"
    ∧ fixture.userTranscoder.Decode "KLUv/QoAAAB7ImlkIjo5OTl97gIAAA%%"
      = ((default, some (GoError.joinError [GoError.errorString "failed to decode Base64",
            GoError.errorString "illegal base64 data"])),
          [Call.Base64Decode "KLUv/QoAAAB7ImlkIjo5OTl97gIAAA%%"]) :=
  ⟨Decode_text_error fixture.userTranscoder "!!! this is not base64 !!!" []
      (GoError.errorString "illegal base64 data") rfl,
    by decide,
    Decode_text_error fixture.userTranscoder "KLUv/QoAAAB7ImlkIjo5OTl97gIAAA%%" []
      (GoError.errorString "illegal base64 data") rfl⟩

/-- C5 (decompression failure): when `s` text-decodes to `c` without error and `Decompress c`
returns the error `e`, whatever bytes come with it, `Decode s` returns the zero value of `T` and
the join of the message "failed to decompress Zstd" with `e`, and the calls made are the text
decoder and `Decompress` only, so `Unmarshal` is not invoked. -/
theorem Decode_decompress_error {T : Type} [Inhabited T] (t : transcoder T) (s : String)
    (c b : Bytes) (e : GoError)
    (hD : t.binaryTranscoder.Decode s = (c, none))
    (hZ : t.standardTranscoder.Decompress c = (b, some e)) :
    t.Decode s
      = ((default, some (GoError.joinError [GoError.errorString "failed to decompress Zstd", e])),
          [Call.Base64Decode s, Call.Decompress c]) := by
  simp [transcoder.Decode, hD, hZ, errorsJoin_two]

/-- Witness of C5 on the two corruptions of the tests: the encoding of `user{ID: 2, Name: "Bob"}`
with its decoded bytes cut to 20, and the encoding of `user{ID: 3}` with the decoded byte at
offset 15 flipped. In the second case the decoder hands back the bytes it read next to the error,
and `Decode` drops them. -/
theorem Decode_decompress_error_witness :
    (fixture.truncateDecoded (fixture.userTranscoder.Encode ⟨2, "Bob", "", 0⟩).1.1
        = "KLUv/RUAAAB7ImlkIjoyLCJuYW0="
      ∧ fixture.userTranscoder.Decode "KLUv/RUAAAB7ImlkIjoyLCJuYW0="
        = ((default, some (GoError.joinError [GoError.errorString "failed to decompress Zstd",
              GoError.errorString "unexpected EOF"])),
            [Call.Base64Decode "KLUv/RUAAAB7ImlkIjoyLCJuYW0=",
              Call.Decompress (fixture.DecodeString "KLUv/RUAAAB7ImlkIjoyLCJuYW0=").1]))
    ∧ (fixture.flipDecoded (fixture.userTranscoder.Encode ⟨3, "", "", 0⟩).1.1
        = "KLUv/QgAAAB7ImlkIjozgnYCAAA="
      ∧ fixture.userTranscoder.Decode "KLUv/QgAAAB7ImlkIjozgnYCAAA="
        = ((default, some (GoError.joinError [GoError.errorString "failed to decompress Zstd",
              GoError.errorString "invalid input: checksum mismatch"])),
            [Call.Base64Decode "KLUv/QgAAAB7ImlkIjozgnYCAAA=",
              Call.Decompress (fixture.DecodeString "KLUv/QgAAAB7ImlkIjozgnYCAAA=").1])) :=
  ⟨⟨by decide,
      Decode_decompress_error fixture.userTranscoder "KLUv/RUAAAB7ImlkIjoyLCJuYW0="
        (fixture.DecodeString "KLUv/RUAAAB7ImlkIjoyLCJuYW0=").1 []
        (GoError.errorString "unexpected EOF") rfl rfl⟩,
    ⟨by decide,
      Decode_decompress_error fixture.userTranscoder "KLUv/QgAAAB7ImlkIjozgnYCAAA="
        (fixture.DecodeString "KLUv/QgAAAB7ImlkIjozgnYCAAA=").1
        [123, 34, 105, 100, 34, 58, 51, 130]
        (GoError.errorString "invalid input: checksum mismatch") rfl rfl⟩⟩

/-- C6 at a failing input: the string encodes the frame of the JSON text
`{"id":7,"name":5}`. The text decoder and `Decompress` succeed and `Unmarshal` fails on the member
`name`; `Decode` returns the value `Unmarshal` returned, in which `ID` is already 7, not the zero
value, and the error of `Unmarshal` as it is, not joined with a stage message. -/
theorem Decode_unmarshal_error_unwrapped :
    fixture.userTranscoder.Decode "KLUv/REAAAB7ImlkIjo3LCJuYW1lIjo1ffoEAAA="
      = ((⟨7, "", "", 0⟩,
            some (GoError.errorString "json: cannot unmarshal into field name")),
          [Call.Base64Decode "KLUv/REAAAB7ImlkIjo3LCJuYW1lIjo1ffoEAAA=",
            Call.Decompress
              (fixture.frameEncodeAll (fixture.codes "\x7b\"id\":7,\"name\":5\x7d") []),
            Call.Unmarshal (fixture.codes "\x7b\"id\":7,\"name\":5\x7d")])
    ∧ (fixture.userTranscoder.Decode "KLUv/REAAAB7ImlkIjo3LCJuYW1lIjo1ffoEAAA=").1.1 ≠ default
    ∧ ∀ (text : String) (e : GoError),
        (fixture.userTranscoder.Decode "KLUv/REAAAB7ImlkIjo3LCJuYW1lIjo1ffoEAAA=").1.2
          ≠ some (GoError.joinError [GoError.errorString text, e]) := by
  have h := Decode_chain fixture.userTranscoder "KLUv/REAAAB7ImlkIjo3LCJuYW1lIjo1ffoEAAA="
    (fixture.frameEncodeAll (fixture.codes "\x7b\"id\":7,\"name\":5\x7d") [])
    (fixture.codes "\x7b\"id\":7,\"name\":5\x7d")
    (⟨7, "", "", 0⟩, some (GoError.errorString "json: cannot unmarshal into field name"))
    rfl rfl rfl
  refine ⟨h, ?_, ?_⟩
  · rw [h]
    decide
  · intro text e
    rw [h]
    simp

/-- An error is never the join of a message with itself. -/
theorem joinError_ne_self (a e : GoError) : GoError.joinError [a, e] ≠ e := by
  intro h
  have h2 := congrArg sizeOf h
  simp at h2
  omega

/-- Wherever the text encoder returns an error `e` after `Marshal` and `Compress` succeeded,
`Encode` returns `e` itself, which is not the join of a stage message with `e`. -/
theorem Encode_text_error_alone {T : Type} (t : transcoder T) (v : T) (b c : Bytes)
    (s : String) (e : GoError)
    (hM : t.jsonTranscoder.Marshal v = (b, none))
    (hC : t.standardTranscoder.Compress b = (c, none))
    (hE : t.binaryTranscoder.Encode c = (s, some e)) :
    (t.Encode v).1 = (s, some e)
      ∧ ∀ text : String,
          (t.Encode v).1.2 ≠ some (GoError.joinError [GoError.errorString text, e]) := by
  have h := Encode_text_result t v b c (s, some e) hM hC hE
  refine ⟨by rw [h], ?_⟩
  intro text hj
  rw [h] at hj
  exact joinError_ne_self _ e (Option.some.inj hj).symm

/-- C7 as stated fails: the claim is about a text encoder that returns an error, and on a
pipeline with such an encoder `Encode` returns that error as it is, not joined with a stage
message, after `Marshal` and `Compress` succeeded. -/
theorem Encode_text_error_unwrapped :
    fixture.failingTextTranscoder.Encode fixture.bob
      = (("", some (GoError.errorString "text encoder failed")),
          [Call.Marshal fixture.bob,
            Call.Compress (fixture.marshalUser fixture.bob),
            Call.Base64Encode (fixture.frameEncodeAll (fixture.marshalUser fixture.bob) [])])
    ∧ ∀ (text : String) (e : GoError),
        (fixture.failingTextTranscoder.Encode fixture.bob).1.2
          ≠ some (GoError.joinError [GoError.errorString text, e]) := by
  have h := Encode_text_result fixture.failingTextTranscoder fixture.bob
    (fixture.marshalUser fixture.bob)
    (fixture.frameEncodeAll (fixture.marshalUser fixture.bob) [])
    ("", some (GoError.errorString "text encoder failed")) rfl rfl rfl
  refine ⟨h, ?_⟩
  intro text e
  rw [h]
  simp

/-- The Base64 encoder of §6 returns a nil error on every input. -/
theorem stdBase64_Encode_nil (src : Bytes) : (fixture.stdBase64.Encode src).2 = none := by
  rfl

/-- C7 as amended: when `Marshal` and `Compress` succeed on `v`, `Encode v` returns the pair the
text encoder returns on the compressed bytes, the string and the error as they are, with no stage
message joined, and the three calls are made in order; so when the text encoder returns a nil
error, as the Base64 encoder of §6 always does, `Encode v` returns its string with a nil error. -/
theorem Encode_text_stage_passthrough {T : Type} (t : transcoder T) (v : T) (b c : Bytes)
    (hM : t.jsonTranscoder.Marshal v = (b, none))
    (hC : t.standardTranscoder.Compress b = (c, none)) :
    t.Encode v
        = (t.binaryTranscoder.Encode c,
            [Call.Marshal v, Call.Compress b, Call.Base64Encode c])
      ∧ ((t.binaryTranscoder.Encode c).2 = none
          → (t.Encode v).1 = ((t.binaryTranscoder.Encode c).1, none)) := by
  have h := Encode_text_result t v b c (t.binaryTranscoder.Encode c) hM hC rfl
  refine ⟨h, ?_⟩
  intro hnil
  rw [h]
  exact Prod.ext rfl hnil

/-- Witness of C7 as amended on the first test value, over the Base64 encoder of §6. -/
theorem Encode_text_stage_passthrough_witness :
    fixture.userTranscoder.Encode fixture.alice
        = (fixture.stdBase64.Encode
              (fixture.frameEncodeAll (fixture.marshalUser fixture.alice) []),
            [Call.Marshal fixture.alice,
              Call.Compress (fixture.marshalUser fixture.alice),
              Call.Base64Encode (fixture.frameEncodeAll (fixture.marshalUser fixture.alice) [])])
      ∧ ((fixture.stdBase64.Encode
            (fixture.frameEncodeAll (fixture.marshalUser fixture.alice) [])).2 = none
          → (fixture.userTranscoder.Encode fixture.alice).1
            = ((fixture.stdBase64.Encode
                (fixture.frameEncodeAll (fixture.marshalUser fixture.alice) [])).1, none)) :=
  Encode_text_stage_passthrough fixture.userTranscoder fixture.alice
    (fixture.marshalUser fixture.alice)
    (fixture.frameEncodeAll (fixture.marshalUser fixture.alice) []) rfl rfl

/-! ## The pooled gzip codec -/

open lib

/-- The pool after `Get` followed by `Put` of the object obtained, when an idle object exists. -/
theorem Get_Put_cons {α : Type} (p : Pool α) (new a : α) (x : Nat × α) (rest : List (Nat × α))
    (h : p.idle = x :: rest) :
    (p.Get new).1.1 = x.1
      ∧ ((p.Get new).2.Put ((p.Get new).1.1, a)).idle = (x.1, a) :: rest
      ∧ ((p.Get new).2.Put ((p.Get new).1.1, a)).created = p.created
      ∧ ((p.Get new).2.Put ((p.Get new).1.1, a)).log
        = p.log ++ [PoolEvent.Get x.1, PoolEvent.Put x.1] := by
  simp [Pool.Get, Pool.Put, h]

/-- The pool after `Get` followed by `Put` of the object obtained, when no object is idle. -/
theorem Get_Put_nil {α : Type} (p : Pool α) (new a : α) (h : p.idle = []) :
    (p.Get new).1.1 = p.created
      ∧ ((p.Get new).2.Put ((p.Get new).1.1, a)).idle = [(p.created, a)]
      ∧ ((p.Get new).2.Put ((p.Get new).1.1, a)).created = p.created + 1
      ∧ ((p.Get new).2.Put ((p.Get new).1.1, a)).log
        = p.log ++ [PoolEvent.New p.created, PoolEvent.Get p.created, PoolEvent.Put p.created] := by
  simp [Pool.Get, Pool.Put, h]

/-- On each of its three returns `Compress` leaves the writer pool as `Get` followed by one `Put`
of the writer obtained, and does not touch the reader pool. -/
theorem Compress_pools (L : GzipLib) (src : Bytes) (s : World L) :
    ∃ w : Writer L,
      (GZIPTranscoder.Compress L src s).2.writerPool
          = (s.writerPool.Get ⟨L.NewWriterLevel, none⟩).2.Put
              ((s.writerPool.Get ⟨L.NewWriterLevel, none⟩).1.1, w)
        ∧ (GZIPTranscoder.Compress L src s).2.readerPool = s.readerPool := by
  unfold GZIPTranscoder.Compress
  simp only []
  split
  · exact ⟨_, rfl, rfl⟩
  · split
    · exact ⟨_, rfl, rfl⟩
    · exact ⟨_, rfl, rfl⟩

/-- On each of its three returns `Decompress` leaves the reader pool as `Get` followed by one
`Put` of the reader obtained, and does not touch the writer pool. -/
theorem Decompress_pools (L : GzipLib) (src : Bytes) (s : World L) :
    ∃ r : Reader L,
      (GZIPTranscoder.Decompress L src s).2.readerPool
          = (s.readerPool.Get ⟨L.NewReader, none⟩).2.Put
              ((s.readerPool.Get ⟨L.NewReader, none⟩).1.1, r)
        ∧ (GZIPTranscoder.Decompress L src s).2.writerPool = s.writerPool := by
  unfold GZIPTranscoder.Decompress
  simp only []
  split
  · exact ⟨_, rfl, rfl⟩
  · split
    · exact ⟨_, rfl, rfl⟩
    · exact ⟨_, rfl, rfl⟩

/-- Method `Get` followed by one `Put` of the object obtained is a single borrow. -/
theorem borrowedOnce_Get_Put {α : Type} (p : Pool α) (new a : α) :
    Pool.BorrowedOnce p ((p.Get new).2.Put ((p.Get new).1.1, a)) := by
  cases h : p.idle with
  | nil =>
    obtain ⟨_, h2, h3, h4⟩ := Get_Put_nil p new a h
    refine ⟨p.created, a, ?_, Or.inr ⟨h, h3, h4⟩⟩
    rw [h2, h]
    rfl
  | cons x rest =>
    obtain ⟨_, h2, h3, h4⟩ := Get_Put_cons p new a x rest h
    refine ⟨x.1, a, ?_, Or.inl ⟨?_, h3, h4⟩⟩
    · rw [h2, h]
      rfl
    · rw [h]
      exact List.cons_ne_nil x rest

/-- A single borrow keeps a steady pool steady and leaves exactly one idle object in it. -/
theorem steady_borrowedOnce {α : Type} {p q : Pool α} (hp : p.Steady)
    (h : Pool.BorrowedOnce p q) : q.Steady ∧ q.idle.length = 1 := by
  obtain ⟨hlen, hle⟩ := hp
  obtain ⟨id, a, hidle, hcase⟩ := h
  rcases hcase with ⟨hne, hc, _⟩ | ⟨hnil, hc, _⟩
  · have h1 : p.idle.length = 1 := by
      have : 0 < p.idle.length := List.length_pos.mpr hne
      omega
    have h2 : q.idle.length = 1 := by
      rw [hidle, List.length_cons, List.length_tail, h1]
    exact ⟨⟨by rw [h2, hc]; omega, by rw [hc]; exact hle⟩, h2⟩
  · have h2 : q.idle.length = 1 := by
      rw [hidle, hnil]
      rfl
    have h0 : p.created = 0 := by
      rw [← hlen, hnil]
      rfl
    exact ⟨⟨by rw [h2, hc, h0], by rw [hc, h0]⟩, h2⟩

/-- Every call keeps both pools steady. -/
theorem step_steady (L : GzipLib) (s : World L) (op : Op)
    (hw : s.writerPool.Steady) (hr : s.readerPool.Steady) :
    (step L s op).writerPool.Steady ∧ (step L s op).readerPool.Steady := by
  cases op with
  | Compress src =>
    obtain ⟨w, h1, h2⟩ := Compress_pools L src s
    simp only [step]
    rw [h1, h2]
    exact ⟨(steady_borrowedOnce hw (borrowedOnce_Get_Put _ _ _)).1, hr⟩
  | Decompress src =>
    obtain ⟨r, h1, h2⟩ := Decompress_pools L src s
    simp only [step]
    rw [h1, h2]
    exact ⟨hw, (steady_borrowedOnce hr (borrowedOnce_Get_Put _ _ _)).1⟩

/-- Every sequence of calls keeps both pools steady. -/
theorem run_steady (L : GzipLib) (ops : List Op) (s : World L)
    (hw : s.writerPool.Steady) (hr : s.readerPool.Steady) :
    (run L ops s).writerPool.Steady ∧ (run L ops s).readerPool.Steady := by
  induction ops generalizing s with
  | nil => exact ⟨hw, hr⟩
  | cons op ops ih =>
    obtain ⟨h1, h2⟩ := step_steady L s op hw hr
    exact ih (step L s op) h1 h2

/-- The state after a sequence of calls and one more call. -/
theorem run_append_singleton (L : GzipLib) (ops : List Op) (op : Op) (s : World L) :
    run L (ops ++ [op]) s = step L (run L ops s) op := by
  simp [run, List.foldl_append]

/-- C8 (pool release on every exit path): for every library, input and state, whichever of its
three returns `Compress` takes, the writer pool afterwards is the pool before with one object
taken by `Get` and put back by exactly one `Put`, and the reader pool is untouched; the same holds
for `Decompress` with the pools exchanged. Hence after every call of every sequence of calls that
starts from empty pools, each pool holds every object it made and made at most one, and the pool
the last call drew from holds exactly one object. -/
theorem pool_release_on_every_path (L : GzipLib) :
    (∀ (src : Bytes) (s : World L),
        Pool.BorrowedOnce s.writerPool (GZIPTranscoder.Compress L src s).2.writerPool
          ∧ (GZIPTranscoder.Compress L src s).2.readerPool = s.readerPool)
    ∧ (∀ (src : Bytes) (s : World L),
        Pool.BorrowedOnce s.readerPool (GZIPTranscoder.Decompress L src s).2.readerPool
          ∧ (GZIPTranscoder.Decompress L src s).2.writerPool = s.writerPool)
    ∧ (∀ (ops : List Op) (src : Bytes),
        (run L (ops ++ [Op.Compress src]) (World.empty L)).writerPool.idle.length = 1
          ∧ (run L (ops ++ [Op.Decompress src]) (World.empty L)).readerPool.idle.length = 1)
    ∧ (∀ ops : List Op,
        (run L ops (World.empty L)).writerPool.idle.length
            = (run L ops (World.empty L)).writerPool.created
          ∧ (run L ops (World.empty L)).writerPool.created ≤ 1
          ∧ (run L ops (World.empty L)).readerPool.idle.length
            = (run L ops (World.empty L)).readerPool.created
          ∧ (run L ops (World.empty L)).readerPool.created ≤ 1) := by
  have hC : ∀ (src : Bytes) (s : World L),
      Pool.BorrowedOnce s.writerPool (GZIPTranscoder.Compress L src s).2.writerPool
        ∧ (GZIPTranscoder.Compress L src s).2.readerPool = s.readerPool := by
    intro src s
    obtain ⟨w, h1, h2⟩ := Compress_pools L src s
    rw [h1]
    exact ⟨borrowedOnce_Get_Put _ _ _, h2⟩
  have hD : ∀ (src : Bytes) (s : World L),
      Pool.BorrowedOnce s.readerPool (GZIPTranscoder.Decompress L src s).2.readerPool
        ∧ (GZIPTranscoder.Decompress L src s).2.writerPool = s.writerPool := by
    intro src s
    obtain ⟨r, h1, h2⟩ := Decompress_pools L src s
    rw [h1]
    exact ⟨borrowedOnce_Get_Put _ _ _, h2⟩
  have h0w : (World.empty L).writerPool.Steady := ⟨rfl, Nat.zero_le 1⟩
  have h0r : (World.empty L).readerPool.Steady := ⟨rfl, Nat.zero_le 1⟩
  refine ⟨hC, hD, ?_, ?_⟩
  · intro ops src
    obtain ⟨hw, hr⟩ := run_steady L ops (World.empty L) h0w h0r
    constructor
    · rw [run_append_singleton]
      exact (steady_borrowedOnce hw (hC src _).1).2
    · rw [run_append_singleton]
      exact (steady_borrowedOnce hr (hD src _).1).2
  · intro ops
    obtain ⟨hw, hr⟩ := run_steady L ops (World.empty L) h0w h0r
    exact ⟨hw.1, hw.2, hr.1, hr.2⟩

/-- Appending to the last buffer of the heap. -/
theorem appendAt_length (bs : List Bytes) (x out : Bytes) :
    appendAt (bs ++ [x]) bs.length out = bs ++ [x ++ out] := by
  induction bs with
  | nil => rfl
  | cons b rest ih =>
    show b :: appendAt (rest ++ [x]) rest.length out = b :: (rest ++ [x ++ out])
    rw [ih]

/-- Reading the last buffer of the heap. -/
theorem getD_length_append (bs : List Bytes) (x d : Bytes) :
    (bs ++ [x]).getD bs.length d = x := by
  induction bs with
  | nil => rfl
  | cons b rest ih =>
    show (rest ++ [x]).getD rest.length d = x
    exact ih

/-- What `Compress` does in terms of the library calls: the borrowed writer is reset, whatever
state it was in, `src` is written and the writer closed; the bytes emitted make up a new buffer
at the end of the heap, which the writer put back is bound to and whose content is returned on
success. -/
theorem Compress_eq (L : GzipLib) (src : Bytes) (s : World L) :
    GZIPTranscoder.Compress L src s
      = match L.Write (L.WriterReset (s.writerPool.Get ⟨L.NewWriterLevel, none⟩).1.2.z) src with
        | (z1, out1, some err) =>
          (([], some err),
            { s with
              writerPool := (s.writerPool.Get ⟨L.NewWriterLevel, none⟩).2.Put
                ((s.writerPool.Get ⟨L.NewWriterLevel, none⟩).1.1, ⟨z1, some s.buffers.length⟩)
              buffers := s.buffers ++ [out1] })
        | (z1, out1, none) =>
          match L.Close z1 with
          | (z2, out2, some err) =>
            (([], some err),
              { s with
                writerPool := (s.writerPool.Get ⟨L.NewWriterLevel, none⟩).2.Put
                  ((s.writerPool.Get ⟨L.NewWriterLevel, none⟩).1.1, ⟨z2, some s.buffers.length⟩)
                buffers := s.buffers ++ [out1 ++ out2] })
          | (z2, out2, none) =>
            ((out1 ++ out2, none),
              { s with
                writerPool := (s.writerPool.Get ⟨L.NewWriterLevel, none⟩).2.Put
                  ((s.writerPool.Get ⟨L.NewWriterLevel, none⟩).1.1, ⟨z2, some s.buffers.length⟩)
                buffers := s.buffers ++ [out1 ++ out2] }) := by
  unfold GZIPTranscoder.Compress
  simp only [Writer.Reset, Writer.Write, Writer.Close, emit]
  rcases hWr : L.Write (L.WriterReset (s.writerPool.Get ⟨L.NewWriterLevel, none⟩).1.2.z) src
    with ⟨z1, out1, _ | err⟩
  · simp only [appendAt_length, List.nil_append]
    rcases hCl : L.Close z1 with ⟨z2, out2, _ | err2⟩
    · simp only [appendAt_length, getD_length_append]
    · simp only [appendAt_length]
  · simp only [appendAt_length, List.nil_append]

/-- What `Decompress` does in terms of the library calls: the borrowed reader is reset onto
`src`, whatever it was bound to, and `src` is read to the end; the reader put back is bound to
`src`. -/
theorem Decompress_eq (L : GzipLib) (src : Bytes) (s : World L) :
    GZIPTranscoder.Decompress L src s
      = match L.ReaderReset (s.readerPool.Get ⟨L.NewReader, none⟩).1.2.z src with
        | (z1, some err) =>
          (([], some err),
            { s with
              readerPool := (s.readerPool.Get ⟨L.NewReader, none⟩).2.Put
                ((s.readerPool.Get ⟨L.NewReader, none⟩).1.1, ⟨z1, some src⟩) })
        | (z1, none) =>
          match L.ReadAll z1 src with
          | (z2, _, some err) =>
            (([], some err),
              { s with
                readerPool := (s.readerPool.Get ⟨L.NewReader, none⟩).2.Put
                  ((s.readerPool.Get ⟨L.NewReader, none⟩).1.1, ⟨z2, some src⟩) })
          | (z2, decompressed, none) =>
            ((decompressed, none),
              { s with
                readerPool := (s.readerPool.Get ⟨L.NewReader, none⟩).2.Put
                  ((s.readerPool.Get ⟨L.NewReader, none⟩).1.1, ⟨z2, some src⟩) }) := by
  unfold GZIPTranscoder.Decompress
  simp only [Reader.Reset, Reader.ReadAll]
  rcases hRs : L.ReaderReset (s.readerPool.Get ⟨L.NewReader, none⟩).1.2.z src
    with ⟨z1, _ | err⟩
  · simp only [Option.getD_some]
    rcases hRd : L.ReadAll z1 src with ⟨z2, out2, _ | err2⟩ <;> rfl
  · rfl

/-- When `Reset` of a writer does not depend on the state the writer was in, the pair returned by
`Compress` is a function of the input alone. -/
theorem Compress_result (L : GzipLib)
    (hW : ∀ z : L.WriterState, L.WriterReset z = L.WriterReset L.NewWriterLevel)
    (b : Bytes) (s : World L) :
    (GZIPTranscoder.Compress L b s).1
      = (GZIPTranscoder.Compress L b (World.empty L)).1 := by
  rw [Compress_eq L b s, Compress_eq L b (World.empty L)]
  rw [hW (s.writerPool.Get ⟨L.NewWriterLevel, none⟩).1.2.z,
    hW ((World.empty L).writerPool.Get ⟨L.NewWriterLevel, none⟩).1.2.z]
  rcases L.Write (L.WriterReset L.NewWriterLevel) b with ⟨z1, out1, _ | err⟩
  · simp only []
    rcases L.Close z1 with ⟨z2, out2, _ | err2⟩ <;> rfl
  · rfl

/-- When `Reset` of a reader does not depend on the state the reader was in, the pair returned by
`Decompress` is a function of the input alone. -/
theorem Decompress_result (L : GzipLib)
    (hR : ∀ (z : L.ReaderState) (src : Bytes),
      L.ReaderReset z src = L.ReaderReset L.NewReader src)
    (b : Bytes) (s : World L) :
    (GZIPTranscoder.Decompress L b s).1
      = (GZIPTranscoder.Decompress L b (World.empty L)).1 := by
  rw [Decompress_eq L b s, Decompress_eq L b (World.empty L)]
  rw [hR (s.readerPool.Get ⟨L.NewReader, none⟩).1.2.z b,
    hR ((World.empty L).readerPool.Get ⟨L.NewReader, none⟩).1.2.z b]
  rcases L.ReaderReset L.NewReader b with ⟨z1, _ | err⟩
  · simp only []
    rcases L.ReadAll z1 b with ⟨z2, out2, _ | err2⟩ <;> rfl
  · rfl

/-- C9 (no cross-call contamination): for a library whose `Reset` puts a writer or reader into
the state of a newly made one whatever state it was in, and for every input `b` and any two
states `s1` and `s2` of the pools (reachable by earlier calls or not), `Compress b` returns the
same bytes and error in both, and so does `Decompress b`. -/
theorem no_cross_call_contamination (L : GzipLib)
    (hW : ∀ z : L.WriterState, L.WriterReset z = L.WriterReset L.NewWriterLevel)
    (hR : ∀ (z : L.ReaderState) (src : Bytes),
      L.ReaderReset z src = L.ReaderReset L.NewReader src)
    (b : Bytes) (s1 s2 : World L) :
    (GZIPTranscoder.Compress L b s1).1 = (GZIPTranscoder.Compress L b s2).1
      ∧ (GZIPTranscoder.Decompress L b s1).1 = (GZIPTranscoder.Decompress L b s2).1 :=
  ⟨(Compress_result L hW b s1).trans (Compress_result L hW b s2).symm,
    (Decompress_result L hR b s1).trans (Decompress_result L hR b s2).symm⟩

/-- Witness of C9 on the stored-format library: the same call on empty pools and after a history
of five calls, among them a `Decompress` that fails in `Reset` and one that fails in `ReadAll`. -/
theorem no_cross_call_contamination_witness :
    (GZIPTranscoder.Compress storedGzip [31, 139, 1, 2, 3, 6, 0, 0, 0, 3, 0, 0, 0]
        (World.empty storedGzip)).1
      = (GZIPTranscoder.Compress storedGzip [31, 139, 1, 2, 3, 6, 0, 0, 0, 3, 0, 0, 0]
          (run storedGzip
            [Op.Decompress [1], Op.Compress [9, 9],
              Op.Decompress [31, 139, 7, 7, 0, 0, 0, 0, 2, 0, 0, 0], Op.Compress [],
              Op.Decompress [31, 139, 9, 9, 18, 0, 0, 0, 2, 0, 0, 0]]
            (World.empty storedGzip))).1
    ∧ (GZIPTranscoder.Decompress storedGzip [31, 139, 1, 2, 3, 6, 0, 0, 0, 3, 0, 0, 0]
        (World.empty storedGzip)).1
      = (GZIPTranscoder.Decompress storedGzip [31, 139, 1, 2, 3, 6, 0, 0, 0, 3, 0, 0, 0]
          (run storedGzip
            [Op.Decompress [1], Op.Compress [9, 9],
              Op.Decompress [31, 139, 7, 7, 0, 0, 0, 0, 2, 0, 0, 0], Op.Compress [],
              Op.Decompress [31, 139, 9, 9, 18, 0, 0, 0, 2, 0, 0, 0]]
            (World.empty storedGzip))).1 :=
  no_cross_call_contamination storedGzip (fun _ => rfl) (fun _ _ => rfl)
    [31, 139, 1, 2, 3, 6, 0, 0, 0, 3, 0, 0, 0] (World.empty storedGzip)
    (run storedGzip
      [Op.Decompress [1], Op.Compress [9, 9],
        Op.Decompress [31, 139, 7, 7, 0, 0, 0, 0, 2, 0, 0, 0], Op.Compress [],
        Op.Decompress [31, 139, 9, 9, 18, 0, 0, 0, 2, 0, 0, 0]]
      (World.empty storedGzip))

/-! ## Buffers bound to pooled objects -/

/-- The idle objects left by `Get` are those after the first. -/
theorem Get_idle_tail {α : Type} (p : Pool α) (new : α) :
    (p.Get new).2.idle = p.idle.tail := by
  unfold Pool.Get
  cases p.idle <;> rfl

/-- On each of its three returns `Decompress` puts the reader back bound to `src`, in front of
the idle readers it did not borrow, and allocates no buffer. -/
theorem Decompress_binding (L : GzipLib) (src : Bytes) (s : World L) :
    ∃ (id : Nat) (z : L.ReaderState),
      (GZIPTranscoder.Decompress L src s).2.readerPool.idle
          = (id, ⟨z, some src⟩) :: s.readerPool.idle.tail
        ∧ (GZIPTranscoder.Decompress L src s).2.buffers = s.buffers := by
  have ht := Get_idle_tail s.readerPool ⟨L.NewReader, none⟩
  rw [Decompress_eq]
  rw [← ht]
  split
  · exact ⟨_, _, rfl, rfl⟩
  · split
    · exact ⟨_, _, rfl, rfl⟩
    · exact ⟨_, _, rfl, rfl⟩

/-- On each of its three returns `Compress` puts the writer back bound to the buffer it
allocated, in front of the idle writers it did not borrow; the buffers of earlier calls are as
before, and on success the bytes returned are those of the new buffer. -/
theorem Compress_binding (L : GzipLib) (src : Bytes) (s : World L) :
    ∃ (id : Nat) (z : L.WriterState) (b : Bytes),
      (GZIPTranscoder.Compress L src s).2.writerPool.idle
          = (id, ⟨z, some s.buffers.length⟩) :: s.writerPool.idle.tail
        ∧ (GZIPTranscoder.Compress L src s).2.buffers = s.buffers ++ [b]
        ∧ ((GZIPTranscoder.Compress L src s).1.2 = none
            → (GZIPTranscoder.Compress L src s).1.1 = b) := by
  have ht := Get_idle_tail s.writerPool ⟨L.NewWriterLevel, none⟩
  rw [Compress_eq]
  rw [← ht]
  split
  · exact ⟨_, _, _, rfl, rfl, fun h => by simp at h⟩
  · split
    · exact ⟨_, _, _, rfl, rfl, fun h => by simp at h⟩
    · exact ⟨_, _, _, rfl, rfl, fun _ => rfl⟩

/-- C11 as stated fails: on the stored-format library and empty pools, after
`Decompress(src)` returns the idle reader is bound to `src`, and after `Compress([1, 2, 3])`
returns the idle writer is bound to buffer 0, the buffer whose bytes the call handed back. -/
theorem pooled_object_keeps_buffer :
    World.readerReferences
        (GZIPTranscoder.Decompress storedGzip [31, 139, 1, 2, 3, 6, 0, 0, 0, 3, 0, 0, 0]
          (World.empty storedGzip)).2
        [31, 139, 1, 2, 3, 6, 0, 0, 0, 3, 0, 0, 0]
    ∧ World.writerReferences
        (GZIPTranscoder.Compress storedGzip [1, 2, 3] (World.empty storedGzip)).2 0
    ∧ (GZIPTranscoder.Compress storedGzip [1, 2, 3] (World.empty storedGzip)).1
      = ([31, 139, 1, 2, 3, 6, 0, 0, 0, 3, 0, 0, 0], none)
    ∧ (GZIPTranscoder.Compress storedGzip [1, 2, 3] (World.empty storedGzip)).2.buffers
      = [[31, 139, 1, 2, 3, 6, 0, 0, 0, 3, 0, 0, 0]] :=
  ⟨⟨(0, ⟨⟨true, true⟩, some [31, 139, 1, 2, 3, 6, 0, 0, 0, 3, 0, 0, 0]⟩),
      List.Mem.head _, rfl⟩,
    ⟨(0, ⟨⟨true, true, 3, 6⟩, some 0⟩), List.Mem.head _, rfl⟩,
    rfl, rfl⟩

/-- What `Decompress` returns is read from `src`: the borrowed reader, whatever source it was
bound to, is reset onto `src` and `src` is read to the end. -/
theorem Decompress_reads_src (L : GzipLib) (src : Bytes) (s : World L) :
    (GZIPTranscoder.Decompress L src s).1
      = match L.ReaderReset (s.readerPool.Get ⟨L.NewReader, none⟩).1.2.z src with
        | (_, some err) => ([], some err)
        | (z1, none) =>
          match L.ReadAll z1 src with
          | (_, _, some err) => ([], some err)
          | (_, decompressed, none) => (decompressed, none) := by
  rw [Decompress_eq]
  rcases L.ReaderReset (s.readerPool.Get ⟨L.NewReader, none⟩).1.2.z src with ⟨z1, _ | err⟩
  · simp only []
    rcases L.ReadAll z1 src with ⟨z2, out2, _ | err2⟩ <;> rfl
  · rfl

/-- C11 as amended: for every library, input and state, whichever return is taken, the reader
`Decompress(src)` puts back is still bound to `src` and the writer `Compress(src)` puts back is
still bound to the buffer the call allocated, whose bytes it hands back on success; the idle
objects the call did not borrow are as before. A borrowed object is bound anew by `Reset` before
its first write or read, whatever it was bound to: the bytes a `Compress` emits all go to its own
new buffer, so the buffers of finished calls keep their content, and what a `Decompress` returns
is read from its own `src`. -/
theorem pooled_object_rebound_on_use (L : GzipLib) :
    (∀ (src : Bytes) (s : World L), ∃ (id : Nat) (z : L.ReaderState),
        (GZIPTranscoder.Decompress L src s).2.readerPool.idle
            = (id, ⟨z, some src⟩) :: s.readerPool.idle.tail
          ∧ (GZIPTranscoder.Decompress L src s).2.writerPool = s.writerPool
          ∧ (GZIPTranscoder.Decompress L src s).2.buffers = s.buffers
          ∧ (GZIPTranscoder.Decompress L src s).1
            = match L.ReaderReset (s.readerPool.Get ⟨L.NewReader, none⟩).1.2.z src with
              | (_, some err) => ([], some err)
              | (z1, none) =>
                match L.ReadAll z1 src with
                | (_, _, some err) => ([], some err)
                | (_, decompressed, none) => (decompressed, none))
    ∧ (∀ (src : Bytes) (s : World L), ∃ (id : Nat) (z : L.WriterState) (b : Bytes),
        (GZIPTranscoder.Compress L src s).2.writerPool.idle
            = (id, ⟨z, some s.buffers.length⟩) :: s.writerPool.idle.tail
          ∧ (GZIPTranscoder.Compress L src s).2.readerPool = s.readerPool
          ∧ (GZIPTranscoder.Compress L src s).2.buffers = s.buffers ++ [b]
          ∧ ((GZIPTranscoder.Compress L src s).1.2 = none
              → (GZIPTranscoder.Compress L src s).1.1 = b)) := by
  constructor
  · intro src s
    obtain ⟨id, z, h1, h2⟩ := Decompress_binding L src s
    obtain ⟨_, _, hw⟩ := Decompress_pools L src s
    exact ⟨id, z, h1, hw, h2, Decompress_reads_src L src s⟩
  · intro src s
    obtain ⟨id, z, b, h1, h2, h3⟩ := Compress_binding L src s
    obtain ⟨_, _, hr⟩ := Compress_pools L src s
    exact ⟨id, z, b, h1, hr, h2, h3⟩

/-! ## The zstd codecs -/

/-- Whatever the library constructors return, `NewZSTDTranscoder` returns a nil error, and it
calls the two constructors and nothing else. -/
theorem NewZSTDTranscoder_result (run : ZstdConstructors) :
    NewZSTDTranscoder run
      = (({ encoder := run.NewWriter.1, decoder := run.NewReader.1 }, none),
          [ZstdCall.NewWriter, ZstdCall.NewReader]) := by
  rfl

/-- C12 at two failing inputs. In a run where the encoder is made and `zstd.NewReader` fails with
an error, `NewZSTDTranscoder` returns a nil error and a transcoder with a nil decoder, and the
encoder already made is not closed; in a run where `zstd.NewWriter` fails with an error, it
returns a nil error and a transcoder with a nil encoder. -/
theorem NewZSTDTranscoder_drops_error :
    (fixture.decoderFails.NewReader.2
        = some (GoError.errorString "zstd: decoder construction failed")
      ∧ (NewZSTDTranscoder fixture.decoderFails).1.2 = none
      ∧ (NewZSTDTranscoder fixture.decoderFails).1.1.encoder.isSome = true
      ∧ (NewZSTDTranscoder fixture.decoderFails).1.1.decoder.isNone = true
      ∧ (NewZSTDTranscoder fixture.decoderFails).2 = [ZstdCall.NewWriter, ZstdCall.NewReader]
      ∧ ZstdCall.EncoderClose ∉ (NewZSTDTranscoder fixture.decoderFails).2)
    ∧ (fixture.encoderFails.NewWriter.2
        = some (GoError.errorString "zstd: encoder construction failed")
      ∧ (NewZSTDTranscoder fixture.encoderFails).1.2 = none
      ∧ (NewZSTDTranscoder fixture.encoderFails).1.1.encoder.isNone = true) := by
  refine ⟨⟨rfl, rfl, rfl, rfl, rfl, ?_⟩, rfl, rfl, rfl⟩
  rw [NewZSTDTranscoder_result]
  decide

/-- On each of its three returns the pooled `Decompress` returns a nil slice next to an
error. -/
theorem GZIP_Decompress_error_nil (L : GzipLib) (src : Bytes) (s : World L)
    (h : (GZIPTranscoder.Decompress L src s).1.2 ≠ none) :
    (GZIPTranscoder.Decompress L src s).1.1 = [] := by
  rw [Decompress_eq] at h ⊢
  split
  · rfl
  · split
    · rfl
    · rename_i h1 _ _ _ h2
      rw [h1] at h
      simp only [] at h
      rw [h2] at h
      exact absurd rfl h

/-- C14 (zstd compression never reports failure): for every byte slice, `Compress` of both zstd
variants returns a nil error. Hence `Encode` never ends in its "failed to compress with Zstd"
branch, the only one whose calls stop at `Compress`, and `Encode v` returns an error exactly when
`Marshal v` does or the text encoder does on the compressed bytes. -/
theorem ZSTD_Compress_never_fails :
    (∀ (t : compressjson.ZSTDTranscoder) (src : Bytes), (t.Compress src).2 = none)
    ∧ (∀ (g : ZstdGlobals) (src : Bytes), (lib.ZSTDTranscoder.Compress g src).2 = none)
    ∧ (∀ (T : Type) (t : transcoder T) (v : T) (b : Bytes),
        (t.Encode v).2 ≠ [Call.Marshal v, Call.Compress b])
    ∧ (∀ (T : Type) (t : transcoder T) (v : T),
        (t.Encode v).1.2 ≠ none
          ↔ ((t.jsonTranscoder.Marshal v).2 ≠ none
            ∨ (t.binaryTranscoder.Encode
                (t.standardTranscoder.Compress (t.jsonTranscoder.Marshal v).1).1).2 ≠ none)) := by
  refine ⟨fun _ _ => rfl, fun _ _ => rfl, ?_, ?_⟩
  · intro T t v b
    unfold transcoder.Encode
    rcases t.jsonTranscoder.Marshal v with ⟨jb, _ | e⟩
    · simp [compressjson.ZSTDTranscoder.Compress]
    · simp
  · intro T t v
    unfold transcoder.Encode
    rcases t.jsonTranscoder.Marshal v with ⟨jb, _ | e⟩
    · simp [compressjson.ZSTDTranscoder.Compress]
    · simp [errorsJoin_two]
